import Mathlib

/-!
Shallow embedding of the Harbor Freight coupon scraper (scraper.py) and
verification of its specification claims.

Strings from the page are modelled as Lean `String`s (lists of characters);
the HTML document tree is modelled by the inductive `Node`; Python `float`
prices are modelled exactly by `ℚ`; each `re` pattern used by the scraper is
embedded as a deterministic scanner over `List Char` that reproduces the
leftmost-search/greedy semantics of that concrete pattern.
-/

/-! ## Character classes (ASCII model of Python regex classes) -/

/-- ASCII decimal digit, the model of the regex class backslash-d. -/
def isDigitC (c : Char) : Bool := '0' ≤ c && c ≤ '9'

/-- ASCII whitespace, the model of the regex class backslash-s and of the
characters removed by Python str.strip. -/
def isSpaceC (c : Char) : Bool :=
  c = ' ' || c = '\t' || c = '\n' || c = '\x0d' || c = '\x0b' || c = '\x0c'

/-- The decimal digit character for n % 10, as printed by Python. -/
def digitChar (n : Nat) : Char :=
  match n % 10 with
  | 0 => '0' | 1 => '1' | 2 => '2' | 3 => '3' | 4 => '4'
  | 5 => '5' | 6 => '6' | 7 => '7' | 8 => '8' | _ => '9'

/-- Numeric value of a list of decimal digit characters (Python int on the
captured digit group). -/
def natOfDigits (ds : List Char) : Nat :=
  ds.foldl (fun a c => a * 10 + (c.toNat - 48)) 0

/-! ## List-of-characters utilities -/

/-- Does the second list start with the first (character-wise)? Model of a
literal prefix test; also the model of Python str.startswith. -/
def leadsWith : List Char → List Char → Bool
  | [], _ => true
  | _ :: _, [] => false
  | p :: ps, c :: cs => if p = c then leadsWith ps cs else false

/-- Python substring containment: pat occurs contiguously in hay. -/
def containsL : List Char → List Char → Bool
  | [], pat => leadsWith pat []
  | c :: t, pat => leadsWith pat (c :: t) || containsL t pat

/-- Python str.strip: drop whitespace from both ends. -/
def trimC (l : List Char) : List Char :=
  ((l.dropWhile isSpaceC).reverse.dropWhile isSpaceC).reverse

/-- Python str.split() with no argument (used by the document model for the
class attribute): split on whitespace runs, dropping empty pieces. -/
def wsSplitAux (acc : List Char) : List Char → List (List Char)
  | [] => if acc = [] then [] else [acc.reverse]
  | c :: rest =>
    if isSpaceC c then
      if acc = [] then wsSplitAux [] rest else acc.reverse :: wsSplitAux [] rest
    else wsSplitAux (c :: acc) rest

/-- See wsSplitAux. -/
def wsSplit (l : List Char) : List (List Char) := wsSplitAux [] l

/-- Splitting a character list at newline characters; auxiliary form returning
the first line and the remaining lines. -/
def splitNLAux : List Char → List Char × List (List Char)
  | [] => ([], [])
  | c :: rest =>
    let p := splitNLAux rest
    if c = '\n' then ([], p.1 :: p.2) else (c :: p.1, p.2)

/-- The lines of a character list (model of splitting the produced text on
the newline character). -/
def splitNL (l : List Char) : List (List Char) :=
  (splitNLAux l).1 :: (splitNLAux l).2

/-- Joining character lists with a newline between consecutive pieces. -/
def charJoin : List (List Char) → List Char
  | [] => []
  | [s] => s
  | s :: rest => s ++ '\n' :: charJoin rest

/-- A character list free of newline characters. -/
def noNL (l : List Char) : Prop := '\n' ∉ l

instance (l : List Char) : Decidable (noNL l) := by
  unfold noNL; infer_instance

/-! ## Decimal rendering (Python int and float formatting) -/

/-- Decimal digits of a natural number, most significant first; fuel-driven
so the recursion is structural (the fuel never runs out when it is at least
the number itself plus one). -/
def natDigitsAux : Nat → Nat → List Char
  | 0, _ => []
  | fuel + 1, n =>
    if n < 10 then [digitChar n]
    else natDigitsAux fuel (n / 10) ++ [digitChar (n % 10)]

/-- Decimal digits of a natural number (Python str of an int). -/
def natDigits (n : Nat) : List Char := natDigitsAux (n + 1) n

/-- Decimal string of a natural number. -/
def natStr (n : Nat) : String := String.mk (natDigits n)

/-- Insert a comma after every three characters of the (reversed) digit list;
fuel-driven so the recursion is structural. -/
def groupAuxF : Nat → List Char → List Char
  | 0, l => l
  | fuel + 1, l =>
    if l.length ≤ 3 then l else l.take 3 ++ ',' :: groupAuxF fuel (l.drop 3)

/-- Thousands grouping of a digit list, as produced by the Python comma format
specifier. -/
def groupDigits (ds : List Char) : List Char :=
  (groupAuxF ds.length ds.reverse).reverse

/-- Round a rational to the nearest integer, ties to even (the rounding used
by Python float formatting), computed on the numerator and denominator: the
floor is the floor division of num by den, and twice the remainder is
compared with den to decide the direction. -/
def roundHalfEven (x : ℚ) : ℤ :=
  if 2 * (x.num - x.num.fdiv x.den * x.den) < (x.den : ℤ) then x.num.fdiv x.den
  else if (x.den : ℤ) < 2 * (x.num - x.num.fdiv x.den * x.den) then x.num.fdiv x.den + 1
  else if x.num.fdiv x.den % 2 = 0 then x.num.fdiv x.den else x.num.fdiv x.den + 1

/-- The character rendering of a signed amount of cents: optional minus sign,
thousands-grouped integer part, a dot, and exactly two fractional digits. -/
def cents2str (n : ℤ) : List Char :=
  (if n < 0 then ['-'] else []) ++
  groupDigits (natDigits (n.natAbs / 100)) ++
  '.' :: [digitChar (n.natAbs / 10 % 10), digitChar (n.natAbs % 10)]

/-- Model of the Python format specifier comma-dot-2-f applied to the price:
two decimal places with thousands separators. -/
def format2f (q : ℚ) : String :=
  String.mk (cents2str (roundHalfEven (mkRat (q.num * 100) q.den)))

/-- Python float() restricted to the strings producible by the price pattern
with commas removed: optional digits, optional dot, optional digits.
Returns none exactly when float() raises ValueError on such input
(the empty string and a lone dot). -/
def decToRat (l : List Char) : Option ℚ :=
  match l.dropWhile isDigitC with
  | [] =>
    if l.takeWhile isDigitC = [] then none
    else some (mkRat (natOfDigits (l.takeWhile isDigitC)) 1)
  | '.' :: fr =>
    if fr.all isDigitC then
      if l.takeWhile isDigitC = [] ∧ fr = [] then none
      else some (mkRat
        (natOfDigits (l.takeWhile isDigitC) * 10 ^ fr.length + natOfDigits fr)
        (10 ^ fr.length))
    else none
  | _ => none

/-! ## The scraper's regular expressions as deterministic scanners

Each matchXAt function decides whether the pattern matches anchored at the
head of the list (returning the captured group), and searchAux tries every
start position left to right, reproducing re.search. -/

/-- re.search: try the anchored matcher at each position, leftmost wins. -/
def searchAux (f : List Char → Option α) : List Char → Option α
  | [] => f []
  | c :: t =>
    match f (c :: t) with
    | some r => some r
    | none => searchAux f t

/-- Case-insensitive literal match (re.IGNORECASE on an ASCII word):
consume pat at the head of the list, returning the rest. -/
def ciSkip : List Char → List Char → Option (List Char)
  | [], l => some l
  | _ :: _, [] => none
  | p :: ps, c :: cs => if c.toLower = p.toLower then ciSkip ps cs else none

/-- Anchored match of the pagination pattern: literal "/page/", one or more
digits (captured, converted to a number), then "/". -/
def matchPageAt (l : List Char) : Option Nat :=
  if leadsWith ("/page/".data) l then
    let rest := l.drop 6
    let ds := rest.takeWhile isDigitC
    if ds ≠ [] ∧ (rest.dropWhile isDigitC).head? = some '/' then
      some (natOfDigits ds)
    else none
  else none

/-- Anchored match of the price pattern: a dollar sign, then one or more
digits or commas (greedy), then an optional dot followed by greedy digits;
the captured group excludes the dollar sign. -/
def matchPriceAt (l : List Char) : Option (List Char) :=
  match l with
  | '$' :: rest =>
    let g1 := rest.takeWhile (fun c => isDigitC c || c = ',')
    let r1 := rest.dropWhile (fun c => isDigitC c || c = ',')
    if g1 = [] then none
    else
      match r1 with
      | '.' :: r2 => some (g1 ++ '.' :: r2.takeWhile isDigitC)
      | _ => some g1
  | _ => none

/-- Anchored match of the coupon-code pattern: the word "Code"
(case-insensitive), optional whitespace, an optional colon or hash, optional
whitespace, then one or more captured digits. -/
def matchCodeAt (l : List Char) : Option (List Char) :=
  match ciSkip ("Code".data) l with
  | none => none
  | some r1 =>
    let r2 := r1.dropWhile isSpaceC
    let r3 := match r2 with
              | ':' :: t => t
              | '#' :: t => t
              | _ => r2
    let r4 := r3.dropWhile isSpaceC
    let ds := r4.takeWhile isDigitC
    if ds = [] then none else some ds

/-- Anchored match of the expiration pattern: the word "Exp"
(case-insensitive), an optional dot, optional whitespace, then a captured
date token of one-or-two digits, slash, one-or-two digits, slash,
two-to-four digits. -/
def matchExpAt (l : List Char) : Option (List Char) :=
  match ciSkip ("Exp".data) l with
  | none => none
  | some r1 =>
    let r2 := match r1 with
              | '.' :: t => t
              | _ => r1
    let r3 := r2.dropWhile isSpaceC
    let d1 := r3.takeWhile isDigitC
    let r4 := r3.dropWhile isDigitC
    if d1.length = 0 ∨ 2 < d1.length then none
    else
      match r4 with
      | '/' :: r5 =>
        let d2 := r5.takeWhile isDigitC
        let r6 := r5.dropWhile isDigitC
        if d2.length = 0 ∨ 2 < d2.length then none
        else
          match r6 with
          | '/' :: r7 =>
            let d3 := r7.takeWhile isDigitC
            if d3.length < 2 then none
            else some (d1 ++ '/' :: d2 ++ '/' :: d3.take 4)
          | _ => none
      | _ => none

/-! ## The HTML document model -/

mutual
/-- A parsed HTML node: an element with a tag, attributes and children, or a
text node. -/
inductive Node where
  | elem (tag : String) (attrs : List (String × String)) (children : NodeList)
  | text (s : String)

/-- The children of an element (a mutual list type, so that recursion over
the tree is structural). -/
inductive NodeList where
  | nil
  | cons (n : Node) (ns : NodeList)
end

/-- Build a child list from an ordinary list of nodes. -/
def nodesOf : List Node → NodeList
  | [] => .nil
  | n :: ns => .cons n (nodesOf ns)

/-- Attribute lookup on an element (Tag.get with no default). -/
def Node.attr : Node → String → Option String
  | .elem _ as _, k => (as.find? (fun p => p.1 == k)).map Prod.snd
  | .text _, _ => none

/-- Attribute lookup with a default (Tag.get with a default). -/
def attrD (n : Node) (k d : String) : String := (n.attr k).getD d

/-- Is this an element with the given tag name? -/
def isTagNamed (t : String) (n : Node) : Bool :=
  match n with
  | .elem tg _ _ => tg == t
  | .text _ => false

/-- Does the element's class attribute, split on whitespace, contain the
given class (the BeautifulSoup class-filter semantics)? -/
def hasClass (n : Node) (c : String) : Bool :=
  match n.attr "class" with
  | some v => (wsSplit v.data).contains c.data
  | none => false

mutual
/-- All descendants of a node in document (pre-)order, the node itself
excluded: the traversal order of find and find_all. -/
def descendants : Node → List Node
  | .text _ => []
  | .elem _ _ cs => descendantsL cs

/-- Descendants helper on child lists. -/
def descendantsL : NodeList → List Node
  | .nil => []
  | .cons n ns => n :: descendants n ++ descendantsL ns
end

/-- find_all with an arbitrary node predicate. -/
def findAllP (p : Node → Bool) (n : Node) : List Node :=
  (descendants n).filter p

/-- find with a tag name: the first matching descendant. -/
def findTag (t : String) (n : Node) : Option Node :=
  (findAllP (isTagNamed t) n).head?

/-- find with a tag name and a required class. -/
def findClassTag (t c : String) (n : Node) : Option Node :=
  (findAllP (fun m => isTagNamed t m && hasClass m c) n).head?

mutual
/-- Characters of get_text(): concatenation of all text descendants. -/
def getTextL : Node → List Char
  | .text s => s.data
  | .elem _ _ cs => getTextLs cs

/-- get_text helper on child lists. -/
def getTextLs : NodeList → List Char
  | .nil => []
  | .cons n ns => getTextL n ++ getTextLs ns
end

/-- get_text() of a node. -/
def getText (n : Node) : String := String.mk (getTextL n)

mutual
/-- Characters of get_text(strip=True): each text descendant stripped, then
concatenated. -/
def getTextStripL : Node → List Char
  | .text s => trimC s.data
  | .elem _ _ cs => getTextStripLs cs

/-- get_text(strip=True) helper on child lists. -/
def getTextStripLs : NodeList → List Char
  | .nil => []
  | .cons n ns => getTextStripL n ++ getTextStripLs ns
end

/-- get_text(strip=True) of a node. -/
def getTextStrip (n : Node) : String := String.mk (getTextStripL n)

/-! ## The scraper (scraper.py) -/

/-- The fixed base URL of the coupon site. -/
def HF_COUPON_BASE_URL : String := "https://go.harborfreight.com"

/-- A Harbor Freight coupon record (the Coupon dataclass); the Python float
price is modelled exactly by a rational number. -/
structure Coupon where
  name : String
  price : ℚ
  code : String
  expiration : String
  image_url : String
  url : String
deriving DecidableEq

/-- Python startswith. -/
def pyStartsWith (s p : String) : Bool := leadsWith p.data s.data

/-- The pagination container search: first a div of class nav-links, then a
nav of class navigation, then a div of class pagination. -/
def findPagination (doc : Node) : Option Node :=
  match findClassTag "div" "nav-links" doc with
  | some p => some p
  | none =>
    match findClassTag "nav" "navigation" doc with
    | some p => some p
    | none => findClassTag "div" "pagination" doc

/-- The highest page number among a list of links, starting from 1: for each
link, search its href (default empty) for the pagination pattern and take the
maximum matched value. -/
def pageFold (links : List Node) : Nat :=
  links.foldl
    (fun m l =>
      match searchAux matchPageAt (attrD l "href" "").data with
      | some p => max m p
      | none => m) 1

/-- Does the node's href attribute exist and contain a pagination-pattern
match (the BeautifulSoup regex attribute filter)? -/
def hrefMatches (n : Node) : Bool :=
  match n.attr "href" with
  | some v => (searchAux matchPageAt v.data).isSome
  | none => false

/-- An anchor whose href matches the pagination pattern. -/
def anchorMatches (n : Node) : Bool := isTagNamed "a" n && hrefMatches n

/-- get_total_pages on the fetched page-1 document: use the anchors of the
pagination container if one is found; otherwise scan the whole page for
matching anchors and, if the resulting maximum does not exceed 1, fall back
to the default of 8. -/
def get_total_pages (doc : Node) : Nat :=
  match findPagination doc with
  | some pagination => pageFold (findAllP (isTagNamed "a") pagination)
  | none =>
    if pageFold (findAllP anchorMatches doc) > 1
    then pageFold (findAllP anchorMatches doc) else 8

/-- The heading lookup of _extract_name_and_url: the first h2 descendant,
else the first h3 descendant. -/
def locateTitle (article : Node) : Option Node :=
  match findTag "h2" article with
  | some t => some t
  | none => findTag "h3" article

/-- The anchor lookup of _extract_name_and_url: an anchor inside the located
heading, else anywhere in the article; none when no heading was found. -/
def locateLink (article : Node) : Option Node :=
  match locateTitle article with
  | none => none
  | some t =>
    match findTag "a" t with
    | some l => some l
    | none => findTag "a" article

/-- The URL-absolutizing step of _extract_name_and_url: a non-empty href not
starting with "http" is prefixed with the base URL. -/
def makeAbs (u : String) : String :=
  if u ≠ "" ∧ pyStartsWith u "http" = false then HF_COUPON_BASE_URL ++ u else u

/-- _extract_name_and_url: name is the link's stripped text, url its href
(empty default) made absolute; rejected when the name is empty or shorter
than 5 characters. -/
def extract_name_and_url (article : Node) : Option (String × String) :=
  match locateLink article with
  | none => none
  | some link =>
    if getTextStrip link = "" ∨ (getTextStrip link).length < 5 then none
    else some (getTextStrip link, makeAbs (attrD link "href" ""))

/-- _extract_price: search for the first dollar-amount match, strip commas
from the captured group and parse it as a decimal; an unparseable group
yields none. -/
def extract_price (text : String) : Option ℚ :=
  match searchAux matchPriceAt text.data with
  | some g => decToRat (g.filter (fun c => c ≠ ','))
  | none => none

/-- _extract_code: the digits of the first coupon-code match, else the empty
string. -/
def extract_code (text : String) : String :=
  match searchAux matchCodeAt text.data with
  | some ds => String.mk ds
  | none => ""

/-- _extract_expiration: the date token of the first expiration match, else
the empty string. -/
def extract_expiration (text : String) : String :=
  match searchAux matchExpAt text.data with
  | some ds => String.mk ds
  | none => ""

/-- _extract_image_url: the src of the first img descendant, falling back to
data-src when src is missing or empty (Python or on the two lookups);
none when there is no img element. -/
def extract_image_url (article : Node) : Option String :=
  match findTag "img" article with
  | some img =>
    match img.attr "src" with
    | some s => if s = "" then img.attr "data-src" else some s
    | none => img.attr "data-src"
  | none => none

/-- _parse_article: extract all fields, then construct the Coupon only when
code and expiration are non-empty, the price parsed, and the image url
present and non-empty (the all([...]) check). -/
def parse_article (article : Node) : Option Coupon :=
  match extract_name_and_url article with
  | none => none
  | some (name, coupon_url) =>
    match extract_price (getText article), extract_image_url article with
    | some p, some i =>
      if extract_code (getText article) = "" ∨
         extract_expiration (getText article) = "" ∨ i = "" then none
      else some ⟨name, p, extract_code (getText article),
                 extract_expiration (getText article), i, coupon_url⟩
    | _, _ => none

/-- The pre-filter of scrape_page: the article's full text must contain both
literal substrings "Code" and "Exp" (case-sensitive). -/
def couponish (article : Node) : Bool :=
  containsL (getText article).data ("Code".data) &&
  containsL (getText article).data ("Exp".data)

/-- scrape_page on the fetched document: all article descendants, filtered by
the pre-filter, parsed, keeping the successes in document order. -/
def scrape_page (doc : Node) : List Coupon :=
  ((findAllP (isTagNamed "article") doc).filter couponish).filterMap parse_article

/-- The page loop of scrape_all: coupons of pages 1..n in page order (the
rate-limiting sleep has no observable effect on the result). -/
def scrapePages (fetch : Nat → Node) : Nat → List Coupon
  | 0 => []
  | n + 1 => scrapePages fetch n ++ scrape_page (fetch (n + 1))

/-- scrape_all, with the page fetcher abstracted as a function from page
numbers to parsed documents: scrape pages 1 up to the discovered total. -/
def scrape_all (fetch : Nat → Node) : List Coupon :=
  scrapePages fetch (get_total_pages (fetch 1))

/-- The header line of the LLM context (without its trailing newline). -/
def headerLine (k : Nat) : String :=
  "# Harbor Freight Coupons (" ++ natStr k ++ " deals)"

/-- The four content lines a coupon contributes to the LLM context, plus the
blank separator line. -/
def couponLines (c : Coupon) : List String :=
  ["## " ++ c.name,
   "- Price: $" ++ format2f c.price,
   "- Code: " ++ c.code,
   "- Expires: " ++ c.expiration,
   ""]

/-- Python newline-join of the accumulated lines. -/
def joinNL : List String → String
  | [] => ""
  | [s] => s
  | s :: rest => s ++ "\n" ++ joinNL rest

/-- to_llm_context: the header (carrying an extra newline), then each
coupon's lines in input order, joined with newlines. -/
def to_llm_context (coupons : List Coupon) : String :=
  joinNL ((headerLine coupons.length ++ "\n") :: (coupons.map couponLines).flatten)

/-! ## Statement-level definitions for the claims -/

/-- The page number a link contributes in the whole-page fallback scan
(0 when its href has no match, which cannot occur for the filtered links). -/
def pageNumOf (l : Node) : Nat :=
  (searchAux matchPageAt (attrD l "href" "").data).getD 0

/-- The page numbers of all pagination-matching anchors of the document. -/
def anchorPageNums (doc : Node) : List Nat :=
  (findAllP anchorMatches doc).map pageNumOf

/-- The fields of a constructed Coupon that are always populated: name, code,
expiration and image url non-empty, and a non-negative parsed price. -/
def CouponPopulated (c : Coupon) : Prop :=
  c.name ≠ "" ∧ c.code ≠ "" ∧ c.expiration ≠ "" ∧ c.image_url ≠ "" ∧ 0 ≤ c.price

/-- The textual fields of a coupon that appear verbatim in the LLM context
are single-line (contain no newline character). -/
def fieldsOneLine (c : Coupon) : Prop :=
  noNL c.name.data ∧ noNL c.code.data ∧ noNL c.expiration.data

instance (c : Coupon) : Decidable (fieldsOneLine c) := by
  unfold fieldsOneLine; infer_instance

/-- The shape claimed for the LLM context of a coupon list: its lines are the
header (stating the count), a blank line, then each coupon's block in input
order; and the number of subheading lines equals the number of coupons. -/
def contextShape (cs : List Coupon) : Prop :=
  splitNL (to_llm_context cs).data
    = (headerLine cs.length).data :: [] :: ((cs.map couponLines).flatten.map String.data) ∧
  (splitNL (to_llm_context cs).data).countP (fun l => leadsWith ("## ".data) l) = cs.length

/-! ## Concrete documents used by counterexamples and witnesses -/

/-- An article whose anchor has no href and whose only dollar amount is zero:
all five required fields pass the construction check, yet the coupon gets an
empty url and a zero price. -/
def c1Article : Node :=
  .elem "article" [] (nodesOf
    [.elem "h2" [] (nodesOf [.elem "a" [] (nodesOf [.text "Wrench Set"])]),
     .elem "img" [("src", "img.jpg")] .nil,
     .text " Now $0.00 Code: 123 Exp 1/2/25"])

/-- A fully well-formed article with a relative product link. -/
def c1Good : Node :=
  .elem "article" [] (nodesOf
    [.elem "h2" [] (nodesOf [.elem "a" [("href", "/deal/7")] (nodesOf [.text "Chainsaw 14 in"])]),
     .elem "img" [("src", "c.jpg")] .nil,
     .text " Only $129.99 with Code: 44 Exp. 9/9/24"])

/-- The coupon extracted from c1Good. -/
def c1GoodCoupon : Coupon :=
  ⟨"Chainsaw 14 in", mkRat 12999 100, "44", "9/9/24", "c.jpg",
   "https://go.harborfreight.com/deal/7"⟩

/-- A page with no pagination container whose only matching anchor points to
page 1. -/
def c2doc : Node :=
  .elem "body" [] (nodesOf [.elem "a" [("href", "/page/1/")] (nodesOf [.text "1"])])

/-- A page with no pagination container and matching anchors to pages 7
and 3. -/
def c2wdoc : Node :=
  .elem "body" [] (nodesOf
    [.elem "a" [("href", "/page/7/")] (nodesOf [.text "7"]),
     .elem "a" [("href", "/page/3/")] (nodesOf [.text "3"])])

/-- Two single-line coupons for evaluating the context formatter. -/
def c3wCoupons : List Coupon :=
  [⟨"Hammer Pro", mkRat 2469 2, "111", "1/2/25", "i.jpg", "http://x"⟩,
   ⟨"Saw Blade", mkRat 5 1, "222", "3/4/26", "j.png", ""⟩]

/-- A page with no pagination container and no pagination-matching anchor. -/
def c4doc : Node :=
  .elem "body" [] (nodesOf [.elem "a" [("href", "/shop/deals")] (nodesOf [.text "deals"])])

/-- A page whose single article mentions neither "Code" nor "Exp". -/
def c5doc : Node :=
  .elem "body" [] (nodesOf [.elem "article" [] (nodesOf [.text "hello world"])])

/-- An article whose heading anchor has a 3-character name but every other
field present. -/
def c7Article : Node :=
  .elem "article" [] (nodesOf
    [.elem "h2" [] (nodesOf [.elem "a" [("href", "/saw")] (nodesOf [.text " Saw "])]),
     .elem "img" [("src", "s.jpg")] .nil,
     .text " $5.00 Code: 9 Exp 1/1/25"])

/-- The anchor inside c7Article. -/
def c7Link : Node := .elem "a" [("href", "/saw")] (nodesOf [.text " Saw "])

/-- A well-formed article with a relative link, for the url-shape witness. -/
def c9Article : Node :=
  .elem "article" [] (nodesOf
    [.elem "h3" [] (nodesOf [.elem "a" [("href", "/tools/w5")] (nodesOf [.text "Angle Grinder"])]),
     .elem "img" [("data-src", "g.jpg")] .nil,
     .text " $19.99 Code: 55 Exp 2/2/26"])

/-- The coupon extracted from c9Article. -/
def c9Coupon : Coupon :=
  ⟨"Angle Grinder", mkRat 1999 100, "55", "2/2/26", "g.jpg",
   "https://go.harborfreight.com/tools/w5"⟩

/-- A page whose pagination container exists but holds no matching anchor. -/
def c10doc : Node :=
  .elem "html" [] (nodesOf
    [.elem "div" [("class", "nav-links wide")]
      (nodesOf [.elem "a" [("href", "/about/")] .nil])])

/-- The pagination container of c10doc. -/
def c10pag : Node :=
  .elem "div" [("class", "nav-links wide")] (nodesOf [.elem "a" [("href", "/about/")] .nil])

/-! ## Helper lemmas -/

theorem leadsWith_self_append (p t : List Char) : leadsWith p (p ++ t) = true := by
  induction p with
  | nil => rfl
  | cons c cs ih => simp [leadsWith, ih]

theorem pyStartsWith_base_append (u : String) :
    pyStartsWith (HF_COUPON_BASE_URL ++ u) "http" = true := by
  unfold pyStartsWith
  rw [String.data_append]
  have hb : HF_COUPON_BASE_URL.data = "http".data ++ "s://go.harborfreight.com".data := by
    decide
  rw [hb, List.append_assoc]
  exact leadsWith_self_append _ _

theorem makeAbs_shape (u : String) :
    makeAbs u = "" ∨ pyStartsWith (makeAbs u) "http" = true := by
  unfold makeAbs
  split
  · exact Or.inr (pyStartsWith_base_append u)
  · rename_i h
    rcases not_and_or.mp h with h | h
    · exact Or.inl (not_not.mp h)
    · right
      cases hb : pyStartsWith u "http" with
      | false => exact absurd hb h
      | true => rfl

theorem mkRat_nonneg_num {n : Int} (hn : 0 ≤ n) (d : Nat) : 0 ≤ mkRat n d := by
  rw [Rat.mkRat_eq_div]
  exact div_nonneg (by exact_mod_cast hn) (by positivity)

theorem decToRat_nonneg {l : List Char} {q : ℚ} (h : decToRat l = some q) : 0 ≤ q := by
  unfold decToRat at h
  split at h
  · split at h
    · exact absurd h (by simp)
    · rw [Option.some_inj] at h
      subst h
      exact mkRat_nonneg_num (by positivity) 1
  · split at h
    · split at h
      · exact absurd h (by simp)
      · rw [Option.some_inj] at h
        subst h
        exact mkRat_nonneg_num (by positivity) _
    · exact absurd h (by simp)
  · exact absurd h (by simp)

theorem extract_price_nonneg {t : String} {p : ℚ} (h : extract_price t = some p) :
    0 ≤ p := by
  unfold extract_price at h
  split at h
  · exact decToRat_nonneg h
  · exact absurd h (by simp)

theorem extract_name_and_url_some {a : Node} {n u : String}
    (h : extract_name_and_url a = some (n, u)) :
    n ≠ "" ∧ ¬n.length < 5 ∧ (u = "" ∨ pyStartsWith u "http" = true) := by
  unfold extract_name_and_url at h
  split at h
  · exact absurd h (by simp)
  · rename_i link heq
    split at h
    · exact absurd h (by simp)
    · rename_i hcond
      rw [Option.some_inj] at h
      injection h with h1 h2
      subst h1
      subst h2
      push_neg at hcond
      exact ⟨hcond.1, by omega, makeAbs_shape _⟩

theorem parse_article_fields {a : Node} {c : Coupon} (h : parse_article a = some c) :
    CouponPopulated c ∧ (c.url = "" ∨ pyStartsWith c.url "http" = true) := by
  unfold parse_article at h
  split at h
  · exact absurd h (by simp)
  · rename_i nu n u heq
    split at h
    · rename_i p i hp hi
      split at h
      · exact absurd h (by simp)
      · rename_i hcond
        push_neg at hcond
        rw [Option.some_inj] at h
        subst h
        obtain ⟨hn, _, hu⟩ := extract_name_and_url_some heq
        exact ⟨⟨hn, hcond.1, hcond.2.1, hcond.2.2, extract_price_nonneg hp⟩, hu⟩
    · exact absurd h (by simp)

theorem mem_scrape_page {doc : Node} {c : Coupon} (h : c ∈ scrape_page doc) :
    ∃ a, parse_article a = some c := by
  unfold scrape_page at h
  rw [List.mem_filterMap] at h
  obtain ⟨a, _, ha⟩ := h
  exact ⟨a, ha⟩

theorem mem_scrapePages {fetch : Nat → Node} {c : Coupon} :
    ∀ {n : Nat}, c ∈ scrapePages fetch n → ∃ a, parse_article a = some c := by
  intro n
  induction n with
  | zero => intro h; cases h
  | succ m ih =>
    intro h
    rcases List.mem_append.mp h with h | h
    · exact ih h
    · exact mem_scrape_page h

theorem pageFold_eq (ls : List Node) :
    pageFold ls = (ls.map pageNumOf).foldl max 1 := by
  unfold pageFold
  rw [List.foldl_map]
  have hf : (fun (m : Nat) (l : Node) =>
      match searchAux matchPageAt (attrD l "href" "").data with
      | some p => max m p
      | none => m) = fun (m : Nat) (l : Node) => max m (pageNumOf l) := by
    funext m l
    unfold pageNumOf
    cases hs : searchAux matchPageAt (attrD l "href" "").data with
    | some p => rfl
    | none => simp
  rw [hf]

theorem foldl_max_init_le (ns : List Nat) : ∀ a : Nat, a ≤ ns.foldl max a := by
  induction ns with
  | nil => intro a; exact Nat.le_refl a
  | cons n t ih =>
    intro a
    rw [List.foldl_cons]
    exact Nat.le_trans (Nat.le_max_left a n) (ih (max a n))

theorem pageFold_ge_one (ls : List Node) : 1 ≤ pageFold ls := by
  rw [pageFold_eq]
  exact foldl_max_init_le _ 1

theorem pageFold_all_none :
    ∀ (ls : List Node),
      (∀ l ∈ ls, searchAux matchPageAt (attrD l "href" "").data = none) →
      pageFold ls = 1 := by
  intro ls
  induction ls with
  | nil => intro _; rfl
  | cons x t ih =>
    intro h
    unfold pageFold at ih ⊢
    rw [List.foldl_cons]
    have hx := h x (List.mem_cons_self x t)
    rw [hx]
    exact ih (fun l hl => h l (List.mem_cons_of_mem x hl))

theorem splitNLAux_noNL {l : List Char} (h : noNL l) : splitNLAux l = (l, []) := by
  induction l with
  | nil => rfl
  | cons c t ih =>
    have hc : ¬c = '\n' := fun e => h (e ▸ List.mem_cons_self c t)
    have ht : noNL t := fun m => h (List.mem_cons_of_mem c m)
    simp [splitNLAux, ih ht, hc]

theorem splitNLAux_append {xs : List Char} (ys : List Char) (h : noNL xs) :
    splitNLAux (xs ++ ys) = (xs ++ (splitNLAux ys).1, (splitNLAux ys).2) := by
  induction xs with
  | nil => simp
  | cons c t ih =>
    have hc : ¬c = '\n' := fun e => h (e ▸ List.mem_cons_self c t)
    have ht : noNL t := fun m => h (List.mem_cons_of_mem c m)
    simp [splitNLAux, ih ht, hc]

theorem joinNL_data (ss : List String) :
    (joinNL ss).data = charJoin (ss.map String.data) := by
  induction ss with
  | nil => rfl
  | cons s rest ih =>
    cases rest with
    | nil => rfl
    | cons r t =>
      show (s ++ "\n" ++ joinNL (r :: t)).data = _
      rw [String.data_append, String.data_append, ih]
      show s.data ++ ['\n'] ++ charJoin ((r :: t).map String.data)
        = charJoin (s.data :: (r :: t).map String.data)
      rw [List.append_assoc]
      rfl

theorem splitNL_charJoin (ss : List (List Char)) (hne : ss ≠ [])
    (h : ∀ s ∈ ss, noNL s) : splitNL (charJoin ss) = ss := by
  induction ss with
  | nil => exact absurd rfl hne
  | cons s rest ih =>
    cases rest with
    | nil =>
      show splitNL s = [s]
      unfold splitNL
      rw [splitNLAux_noNL (h s (List.mem_cons_self s []))]
    | cons r t =>
      have hs : noNL s := h s (List.mem_cons_self s (r :: t))
      have ihr := ih (by simp) (fun x hx => h x (List.mem_cons_of_mem s hx))
      show splitNL (s ++ '\n' :: charJoin (r :: t)) = s :: r :: t
      unfold splitNL at ihr ⊢
      rw [splitNLAux_append _ hs]
      show (s ++ (splitNLAux ('\n' :: charJoin (r :: t))).1)
          :: (splitNLAux ('\n' :: charJoin (r :: t))).2 = s :: r :: t
      have hstep : splitNLAux ('\n' :: charJoin (r :: t))
          = ([], (splitNLAux (charJoin (r :: t))).1 :: (splitNLAux (charJoin (r :: t))).2) := by
        simp [splitNLAux]
      rw [hstep]
      simp only [List.append_nil]
      rw [ihr]

theorem digitChar_isDigit (n : Nat) : isDigitC (digitChar n) = true := by
  unfold digitChar
  split <;> rfl

theorem natDigitsAux_isDigit :
    ∀ (fuel n : Nat), ∀ c ∈ natDigitsAux fuel n, isDigitC c = true := by
  intro fuel
  induction fuel with
  | zero => intro n c hc; cases hc
  | succ f ih =>
    intro n c hc
    unfold natDigitsAux at hc
    split at hc
    · rw [List.mem_singleton] at hc
      exact hc ▸ digitChar_isDigit n
    · rcases List.mem_append.mp hc with h | h
      · exact ih (n / 10) c h
      · rw [List.mem_singleton] at h
        exact h ▸ digitChar_isDigit (n % 10)

theorem natDigits_isDigit (n : Nat) : ∀ c ∈ natDigits n, isDigitC c = true :=
  natDigitsAux_isDigit (n + 1) n

theorem groupAuxF_mem :
    ∀ (fuel : Nat) (l : List Char) (c : Char), c ∈ groupAuxF fuel l → c ∈ l ∨ c = ',' := by
  intro fuel
  induction fuel with
  | zero => intro l c h; exact Or.inl h
  | succ f ih =>
    intro l c h
    unfold groupAuxF at h
    split at h
    · exact Or.inl h
    · rcases List.mem_append.mp h with h | h
      · exact Or.inl (List.take_subset 3 l h)
      · rcases List.mem_cons.mp h with h | h
        · exact Or.inr h
        · rcases ih (l.drop 3) c h with h | h
          · exact Or.inl (List.drop_subset 3 l h)
          · exact Or.inr h

theorem groupDigits_mem {ds : List Char} {c : Char} (h : c ∈ groupDigits ds) :
    c ∈ ds ∨ c = ',' := by
  unfold groupDigits at h
  rw [List.mem_reverse] at h
  rcases groupAuxF_mem _ _ _ h with h | h
  · exact Or.inl (List.mem_reverse.mp h)
  · exact Or.inr h

theorem isDigit_ne_nl {c : Char} (h : isDigitC c = true) : c ≠ '\n' := by
  intro e
  rw [e] at h
  exact absurd h (by decide)

theorem format2f_noNL (q : ℚ) : noNL (format2f q).data := by
  show '\n' ∉ cents2str (roundHalfEven (mkRat (q.num * 100) q.den))
  intro hmem
  unfold cents2str at hmem
  rcases List.mem_append.mp hmem with h | h
  · rcases List.mem_append.mp h with h | h
    · split at h
      · rw [List.mem_singleton] at h
        cases h
      · cases h
    · rcases groupDigits_mem h with h | h
      · exact isDigit_ne_nl (natDigits_isDigit _ _ h) rfl
      · cases h
  · rcases List.mem_cons.mp h with h | h
    · cases h
    · rcases List.mem_cons.mp h with h | h
      · exact isDigit_ne_nl (digitChar_isDigit _) h.symm
      · rw [List.mem_singleton] at h
        exact isDigit_ne_nl (digitChar_isDigit _) h.symm

theorem natStr_noNL (k : Nat) : noNL (natStr k).data := by
  intro h
  exact isDigit_ne_nl (natDigits_isDigit k '\n' h) rfl

theorem headerLine_noNL (k : Nat) : noNL (headerLine k).data := by
  unfold headerLine
  intro h
  rw [String.data_append, String.data_append] at h
  rcases List.mem_append.mp h with h | h
  · rcases List.mem_append.mp h with h | h
    · exact absurd h (by decide)
    · exact natStr_noNL k h
  · exact absurd h (by decide)

theorem couponLines_noNL (c : Coupon) (h : fieldsOneLine c) :
    ∀ s ∈ couponLines c, noNL s.data := by
  obtain ⟨h1, h2, h3⟩ := h
  intro s hs
  unfold couponLines at hs
  rcases List.mem_cons.mp hs with rfl | hs
  · intro hm
    rw [String.data_append] at hm
    rcases List.mem_append.mp hm with hm | hm
    · exact absurd hm (by decide)
    · exact h1 hm
  rcases List.mem_cons.mp hs with rfl | hs
  · intro hm
    rw [String.data_append] at hm
    rcases List.mem_append.mp hm with hm | hm
    · exact absurd hm (by decide)
    · exact format2f_noNL c.price hm
  rcases List.mem_cons.mp hs with rfl | hs
  · intro hm
    rw [String.data_append] at hm
    rcases List.mem_append.mp hm with hm | hm
    · exact absurd hm (by decide)
    · exact h2 hm
  rcases List.mem_cons.mp hs with rfl | hs
  · intro hm
    rw [String.data_append] at hm
    rcases List.mem_append.mp hm with hm | hm
    · exact absurd hm (by decide)
    · exact h3 hm
  rcases List.mem_cons.mp hs with rfl | hs
  · intro hm
    cases hm
  · cases hs

theorem splitNL_context (H0 : String) (ss : List String) (hH : noNL H0.data)
    (hne : ss ≠ []) (hs : ∀ s ∈ ss, noNL s.data) :
    splitNL (joinNL ((H0 ++ "\n") :: ss)).data = H0.data :: [] :: ss.map String.data := by
  cases ss with
  | nil => exact absurd rfl hne
  | cons x xs =>
    have hJ : (joinNL ((H0 ++ "\n") :: x :: xs)).data
        = H0.data ++ '\n' :: '\n' :: charJoin ((x :: xs).map String.data) := by
      show ((H0 ++ "\n") ++ "\n" ++ joinNL (x :: xs)).data = _
      rw [String.data_append, String.data_append, String.data_append, joinNL_data]
      show (H0.data ++ ['\n']) ++ ['\n'] ++ charJoin ((x :: xs).map String.data) = _
      rw [List.append_assoc, List.append_assoc]
      rfl
    rw [hJ]
    unfold splitNL
    rw [splitNLAux_append _ hH]
    have hstep : splitNLAux ('\n' :: '\n' :: charJoin ((x :: xs).map String.data))
        = ([], [] :: (splitNLAux (charJoin ((x :: xs).map String.data))).1
            :: (splitNLAux (charJoin ((x :: xs).map String.data))).2) := by
      simp [splitNLAux]
    rw [hstep]
    simp only [List.append_nil]
    have hcj : splitNL (charJoin ((x :: xs).map String.data)) = (x :: xs).map String.data :=
      splitNL_charJoin _ (by simp) (by
        intro s hsm
        rw [List.mem_map] at hsm
        obtain ⟨y, hy, rfl⟩ := hsm
        exact hs y hy)
    unfold splitNL at hcj
    rw [hcj]

theorem leadsWith_hash_lines (t : List Char) :
    leadsWith ("## ".data) ('#' :: '#' :: ' ' :: t) = true := rfl

theorem leadsWith_header_false (k : Nat) :
    leadsWith ("## ".data) (headerLine k).data = false := by
  unfold headerLine
  rw [String.data_append, String.data_append]
  rfl

theorem block_countP (c : Coupon) :
    ((couponLines c).map String.data).countP (fun l => leadsWith ("## ".data) l) = 1 := by
  obtain ⟨⟨nd⟩, p, ⟨cd⟩, ⟨ed⟩, i, u⟩ := c
  rfl

theorem countBlocks (cs : List Coupon) :
    ((cs.map couponLines).flatten.map String.data).countP
      (fun l => leadsWith ("## ".data) l) = cs.length := by
  induction cs with
  | nil => rfl
  | cons c t ih =>
    show ((couponLines c ++ (t.map couponLines).flatten).map String.data).countP
        (fun l => leadsWith ("## ".data) l) = t.length + 1
    rw [List.map_append, List.countP_append, ih, block_countP]
    omega

/-! ## The claims -/

/-- Claim C1, counterexample: on an article whose anchor has no href and whose
only dollar amount is zero, _parse_article still constructs a Coupon, with an
empty url and a price of 0 — contradicting the claim that every constructed
Coupon has every field non-empty and a positive price. -/
theorem c1_counterexample :
    parse_article c1Article = some ⟨"Wrench Set", 0, "123", "1/2/25", "img.jpg", ""⟩ := by
  decide

/-- Claim C1 (amended): every Coupon returned by _parse_article (and thus by
scrape_page and scrape_all) has non-empty name, code, expiration and image
url and a non-negative price; the url may be empty (anchor without href) and
the price may be zero. -/
theorem c1_coupon_populated :
    (∀ a c, parse_article a = some c → CouponPopulated c) ∧
    (∀ doc c, c ∈ scrape_page doc → CouponPopulated c) ∧
    (∀ fetch c, c ∈ scrape_all fetch → CouponPopulated c) := by
  refine ⟨fun a c h => (parse_article_fields h).1, fun doc c h => ?_, fun fetch c h => ?_⟩
  · obtain ⟨a, ha⟩ := mem_scrape_page h
    exact (parse_article_fields ha).1
  · obtain ⟨a, ha⟩ := mem_scrapePages h
    exact (parse_article_fields ha).1

/-- Claim C1, witness: a fully well-formed article yields a populated
Coupon. -/
theorem c1_witness :
    parse_article c1Good = some c1GoodCoupon ∧ CouponPopulated c1GoodCoupon :=
  ⟨by decide, c1_coupon_populated.1 c1Good c1GoodCoupon (by decide)⟩

/-- Claim C2, counterexample: a page with no pagination container whose only
matching anchor points to page 1 makes get_total_pages return the default 8,
not the maximum (1) — contradicting the claim that the maximum is returned
even when it is 1. -/
theorem c2_counterexample :
    findPagination c2doc = none ∧ anchorPageNums c2doc = [1] ∧
    get_total_pages c2doc = 8 :=
  ⟨rfl, by decide, by decide⟩

/-- Claim C2 (amended): when no pagination container is found,
get_total_pages returns the maximum page number among the matching anchors
when that maximum exceeds 1, and the default 8 otherwise (in particular when
the maximum is 1). -/
theorem c2_fallback_max (doc : Node) (h : findPagination doc = none) :
    (1 < (anchorPageNums doc).foldl max 1 →
      get_total_pages doc = (anchorPageNums doc).foldl max 1) ∧
    ((anchorPageNums doc).foldl max 1 ≤ 1 → get_total_pages doc = 8) := by
  have key : pageFold (findAllP anchorMatches doc) = (anchorPageNums doc).foldl max 1 := by
    rw [pageFold_eq]
    rfl
  have hred : get_total_pages doc =
      if pageFold (findAllP anchorMatches doc) > 1
      then pageFold (findAllP anchorMatches doc) else 8 := by
    unfold get_total_pages
    rw [h]
  constructor
  · intro hgt
    rw [hred, key, if_pos hgt]
  · intro hle
    rw [hred, key, if_neg (by omega)]

/-- Claim C2, witness: with matching anchors to pages 7 and 3 and no
container, the total is 7. -/
theorem c2_witness :
    findPagination c2wdoc = none ∧ 1 < (anchorPageNums c2wdoc).foldl max 1 ∧
    get_total_pages c2wdoc = (anchorPageNums c2wdoc).foldl max 1 :=
  ⟨rfl, by decide, (c2_fallback_max c2wdoc rfl).1 (by decide)⟩

/-- Claim C3: for every coupon list whose textual fields are single-line, the
context text's lines are exactly the count-bearing header, a blank line, and
each coupon's block (subheading with the name, bullet lines for price, code
and expiration, and a blank separator) in input order; consequently the
number of subheading lines equals the number of coupons. -/
theorem c3_context_shape (cs : List Coupon) (h : ∀ c ∈ cs, fieldsOneLine c) :
    contextShape cs := by
  unfold contextShape
  have hlines : ∀ s ∈ (cs.map couponLines).flatten, noNL s.data := by
    intro s hs
    rw [List.mem_flatten] at hs
    obtain ⟨b, hb, hsb⟩ := hs
    rw [List.mem_map] at hb
    obtain ⟨c, hc, rfl⟩ := hb
    exact couponLines_noNL c (h c hc) s hsb
  cases cs with
  | nil => exact ⟨by decide, by decide⟩
  | cons c t =>
    have h1 : splitNL (to_llm_context (c :: t)).data
        = (headerLine (c :: t).length).data :: [] ::
          (((c :: t).map couponLines).flatten.map String.data) :=
      splitNL_context (headerLine (c :: t).length) (((c :: t).map couponLines).flatten)
        (headerLine_noNL _) (by simp [couponLines]) hlines
    refine ⟨h1, ?_⟩
    rw [h1, List.countP_cons, List.countP_cons, countBlocks, leadsWith_header_false]
    simp [leadsWith]

/-- Claim C3, witness: two concrete coupons produce the claimed shape. -/
theorem c3_witness :
    (∀ c ∈ c3wCoupons, fieldsOneLine c) ∧ contextShape c3wCoupons :=
  ⟨by decide, c3_context_shape c3wCoupons (by decide)⟩

/-- Claim C4: on a page-1 document where no pagination container is found and
no anchor has a matching href, get_total_pages returns the default 8. -/
theorem c4_default_eight (doc : Node) (h1 : findPagination doc = none)
    (h2 : ∀ l ∈ findAllP (isTagNamed "a") doc, hrefMatches l = false) :
    get_total_pages doc = 8 := by
  have hempty : findAllP anchorMatches doc = [] := by
    unfold findAllP
    rw [List.filter_eq_nil_iff]
    intro a ha
    unfold anchorMatches
    cases ht : isTagNamed "a" a with
    | false => simp [ht]
    | true =>
      have hmem : a ∈ findAllP (isTagNamed "a") doc := by
        unfold findAllP
        rw [List.mem_filter]
        exact ⟨ha, ht⟩
      simp [ht, h2 a hmem]
  unfold get_total_pages
  rw [h1, hempty]
  rfl

/-- Claim C4, witness: a page with one non-matching anchor resolves to 8. -/
theorem c4_witness :
    findPagination c4doc = none ∧
    (∀ l ∈ findAllP (isTagNamed "a") c4doc, hrefMatches l = false) ∧
    get_total_pages c4doc = 8 :=
  ⟨rfl, by decide, c4_default_eight c4doc rfl (by decide)⟩

/-- Claim C5: when every article of the document lacks "Code" or lacks "Exp"
in its full text (in particular when it lacks both), scrape_page extracts no
coupons. -/
theorem c5_prefilter (doc : Node)
    (h : ∀ a ∈ findAllP (isTagNamed "article") doc,
      ¬(containsL (getText a).data ("Code".data) = true ∧
        containsL (getText a).data ("Exp".data) = true)) :
    scrape_page doc = [] := by
  unfold scrape_page
  have hempty : (findAllP (isTagNamed "article") doc).filter couponish = [] := by
    rw [List.filter_eq_nil_iff]
    intro a ha hc
    unfold couponish at hc
    rw [Bool.and_eq_true] at hc
    exact h a ha hc
  rw [hempty]
  rfl

/-- Claim C5, witness: an article mentioning neither marker yields no
coupons. -/
theorem c5_witness :
    (∀ a ∈ findAllP (isTagNamed "article") c5doc,
      ¬(containsL (getText a).data ("Code".data) = true ∧
        containsL (getText a).data ("Exp".data) = true)) ∧
    scrape_page c5doc = [] :=
  ⟨by decide, c5_prefilter c5doc (by decide)⟩

/-- Claim C6: price extraction takes the first dollar match (with thousands
separators stripped) as a decimal — 1299.99 from a text containing the
formatted amount, 49 from a plain amount — and a first match that fails to
parse yields none rather than an error. -/
theorem c6_price_parsing :
    extract_price "$1,299.99" = some (mkRat 129999 100) ∧
    extract_price "$49" = some 49 ∧
    extract_price "Blower sale $1,299.99 today" = some (mkRat 129999 100) ∧
    extract_price "pay $49 now and $100 later" = some 49 ∧
    extract_price "$, but $5" = none :=
  ⟨by decide, by decide, by decide, by decide, by decide⟩

/-- Claim C7: when the located heading/anchor pair has a stripped name
shorter than 5 characters, _extract_name_and_url returns none and no Coupon
is produced for the article. -/
theorem c7_short_name (a link : Node) (h1 : locateLink a = some link)
    (h2 : (getTextStrip link).length < 5) :
    extract_name_and_url a = none ∧ parse_article a = none := by
  have he : extract_name_and_url a = none := by
    unfold extract_name_and_url
    rw [h1]
    show (if getTextStrip link = "" ∨ (getTextStrip link).length < 5 then none
        else some (getTextStrip link, makeAbs (attrD link "href" ""))) = none
    rw [if_pos (Or.inr h2)]
  refine ⟨he, ?_⟩
  unfold parse_article
  rw [he]

/-- Claim C7, witness: an article whose anchor text strips to the
3-character "Saw" is rejected though all other fields are present. -/
theorem c7_witness :
    locateLink c7Article = some c7Link ∧ (getTextStrip c7Link).length < 5 ∧
    extract_name_and_url c7Article = none ∧ parse_article c7Article = none :=
  ⟨rfl, by decide, (c7_short_name c7Article c7Link rfl (by decide)).1,
   (c7_short_name c7Article c7Link rfl (by decide)).2⟩

/-- Claim C8: code extraction matches the word "Code" case-insensitively,
with an optional colon or hash and optional whitespace, capturing the
digits. -/
theorem c8_code_parsing :
    extract_code "Code: 12345" = "12345" ∧
    extract_code "Code #12345" = "12345" ∧
    extract_code "Save big CODE:12345 now" = "12345" ∧
    extract_code "code 12345" = "12345" :=
  ⟨by decide, by decide, by decide, by decide⟩

/-- Claim C9: every Coupon produced by _parse_article carries a url that is
either empty or starts with "http" (relative hrefs are prefixed with the
base URL). -/
theorem c9_url_shape (a : Node) (c : Coupon) (h : parse_article a = some c) :
    c.url = "" ∨ pyStartsWith c.url "http" = true :=
  (parse_article_fields h).2

/-- Claim C9, witness: a relative href is rewritten to an absolute URL. -/
theorem c9_witness :
    parse_article c9Article = some c9Coupon ∧
    (c9Coupon.url = "" ∨ pyStartsWith c9Coupon.url "http" = true) :=
  ⟨by decide, c9_url_shape c9Article c9Coupon (by decide)⟩

/-- Claim C10: get_total_pages always returns at least 1; when a pagination
container is found its anchor maximum is returned (the default 8 is never
used), and a found container with no matching anchors yields 1. -/
theorem c10_container_priority :
    (∀ doc, 1 ≤ get_total_pages doc) ∧
    (∀ doc pag, findPagination doc = some pag →
      get_total_pages doc = pageFold (findAllP (isTagNamed "a") pag)) ∧
    (∀ doc pag, findPagination doc = some pag →
      (∀ l ∈ findAllP (isTagNamed "a") pag,
        searchAux matchPageAt (attrD l "href" "").data = none) →
      get_total_pages doc = 1) := by
  have hsome : ∀ doc pag, findPagination doc = some pag →
      get_total_pages doc = pageFold (findAllP (isTagNamed "a") pag) := by
    intro doc pag h
    unfold get_total_pages
    rw [h]
  refine ⟨?_, hsome, ?_⟩
  · intro doc
    unfold get_total_pages
    cases h : findPagination doc with
    | some pag => exact pageFold_ge_one _
    | none =>
      show 1 ≤ if pageFold (findAllP anchorMatches doc) > 1
          then pageFold (findAllP anchorMatches doc) else 8
      split <;> omega
  · intro doc pag h hall
    rw [hsome doc pag h]
    exact pageFold_all_none _ hall

/-- Claim C10, witness: a pagination container with a single non-matching
anchor yields 1 page, not the default 8. -/
theorem c10_witness :
    1 ≤ get_total_pages c10doc ∧ findPagination c10doc = some c10pag ∧
    get_total_pages c10doc = 1 :=
  ⟨c10_container_priority.1 c10doc, rfl,
   c10_container_priority.2.2 c10doc c10pag rfl (by decide)⟩
